import Mathlib

/-!
Verification of the OpenCV-Toolkit image-transformation pipeline and its
Vue workspace frontend.

The repository ships a FastAPI backend (only its README is present here)
and a Vue 3 frontend (`frontend-vue/OpenCV-Toolkit/src`).  The pixel-level
engine functions (`orderQuadCorners`, `adjustBrightness`, `adjustContrast`,
`compositeOverlay`, the dispatcher's parameter validation) live in the
backend and are therefore modelled from the specification, as indicated on
each definition.  The frontend state handling (`WorkspaceView.vue`,
`stores/auth.ts`, `services/http.ts`) is embedded directly from the
TypeScript source.
-/

namespace OpenCVToolkit

/-- Modelled from the spec: `Point2D`, a pair of coordinates.  Coordinates
are embedded as exact rationals. -/
structure Pt where
  x : ℚ
  y : ℚ
deriving DecidableEq

/-- Comparison key used when classifying quad corners: a lexicographic
triple.  The first component is the quantity named by the spec (the
coordinate sum or difference); the remaining two components are the point
coordinates themselves, supplying the explicit tie-break rule the spec's
design notes call for. -/
abbrev CornerKey : Type := ℚ ×ₗ ℚ ×ₗ ℚ

/-- Modelled from the spec: the key "x + y" used to pick the top-left
(minimum) and bottom-right (maximum) corners, with coordinate tie-breaks. -/
def sumKey (p : Pt) : CornerKey := toLex (p.x + p.y, toLex (p.x, p.y))

/-- Modelled from the spec: the key "y − x" used to pick the top-right
(smaller) of the two remaining corners, with coordinate tie-breaks. -/
def diffKey (p : Pt) : CornerKey := toLex (p.y - p.x, toLex (p.x, p.y))

theorem sumKey_injective : Function.Injective sumKey := by
  intro p q h
  unfold sumKey at h
  have h' := toLex.injective h
  have hx : p.x = q.x := congrArg (fun t => (ofLex t.2).1) h'
  have hy : p.y = q.y := congrArg (fun t => (ofLex t.2).2) h'
  cases p; cases q; simp_all

theorem diffKey_injective : Function.Injective diffKey := by
  intro p q h
  unfold diffKey at h
  have h' := toLex.injective h
  have hx : p.x = q.x := congrArg (fun t => (ofLex t.2).1) h'
  have hy : p.y = q.y := congrArg (fun t => (ofLex t.2).2) h'
  cases p; cases q; simp_all

/-- Binary minimum of two points with respect to a corner key. -/
def minKey (k : Pt → CornerKey) (p q : Pt) : Pt := if k q < k p then q else p

/-- Binary maximum of two points with respect to a corner key. -/
def maxKey (k : Pt → CornerKey) (p q : Pt) : Pt := if k p < k q then q else p

theorem minKey_left {k : Pt → CornerKey} {p q : Pt} (h : k p ≤ k q) :
    minKey k p q = p := if_neg (not_lt.mpr h)

theorem minKey_right {k : Pt → CornerKey} {p q : Pt} (h : k q < k p) :
    minKey k p q = q := if_pos h

theorem maxKey_left {k : Pt → CornerKey} {p q : Pt} (h : k q ≤ k p) :
    maxKey k p q = p := if_neg (not_lt.mpr h)

theorem maxKey_right {k : Pt → CornerKey} {p q : Pt} (h : k p < k q) :
    maxKey k p q = q := if_pos h

theorem minKey_comm {k : Pt → CornerKey} (hk : Function.Injective k) (p q : Pt) :
    minKey k p q = minKey k q p := by
  rcases lt_trichotomy (k p) (k q) with h | h | h
  · rw [minKey_left h.le, minKey_right h]
  · cases hk h; rfl
  · rw [minKey_right h, minKey_left h.le]

theorem maxKey_comm {k : Pt → CornerKey} (hk : Function.Injective k) (p q : Pt) :
    maxKey k p q = maxKey k q p := by
  rcases lt_trichotomy (k p) (k q) with h | h | h
  · rw [maxKey_right h, maxKey_left h.le]
  · cases hk h; rfl
  · rw [maxKey_left h.le, maxKey_right h]

theorem minKey_assoc (k : Pt → CornerKey) (p q r : Pt) :
    minKey k (minKey k p q) r = minKey k p (minKey k q r) := by
  rcases le_or_lt (k p) (k q) with hpq | hpq <;> rcases le_or_lt (k q) (k r) with hqr | hqr
  · rw [minKey_left hpq, minKey_left hqr, minKey_left (hpq.trans hqr), minKey_left hpq]
  · rw [minKey_left hpq, minKey_right hqr]
  · rw [minKey_right hpq, minKey_left hqr, minKey_right hpq]
  · rw [minKey_right hpq, minKey_right hqr, minKey_right (hqr.trans hpq)]

theorem maxKey_assoc (k : Pt → CornerKey) (p q r : Pt) :
    maxKey k (maxKey k p q) r = maxKey k p (maxKey k q r) := by
  rcases le_or_lt (k q) (k p) with hpq | hpq <;> rcases le_or_lt (k r) (k q) with hqr | hqr
  · rw [maxKey_left hpq, maxKey_left hqr, maxKey_left (hqr.trans hpq), maxKey_left hpq]
  · rw [maxKey_left hpq, maxKey_right hqr]
  · rw [maxKey_right hpq, maxKey_left hqr, maxKey_right hpq]
  · rw [maxKey_right hpq, maxKey_right hqr, maxKey_right (hpq.trans hqr)]

theorem minSum_comm (p q : Pt) : minKey sumKey p q = minKey sumKey q p :=
  minKey_comm sumKey_injective p q

theorem minSum_assoc (p q r : Pt) :
    minKey sumKey (minKey sumKey p q) r = minKey sumKey p (minKey sumKey q r) :=
  minKey_assoc sumKey p q r

theorem minSum_left_comm (p q r : Pt) :
    minKey sumKey p (minKey sumKey q r) = minKey sumKey q (minKey sumKey p r) := by
  rw [← minSum_assoc, minSum_comm p q, minSum_assoc]

theorem maxSum_comm (p q : Pt) : maxKey sumKey p q = maxKey sumKey q p :=
  maxKey_comm sumKey_injective p q

theorem maxSum_assoc (p q r : Pt) :
    maxKey sumKey (maxKey sumKey p q) r = maxKey sumKey p (maxKey sumKey q r) :=
  maxKey_assoc sumKey p q r

theorem maxSum_left_comm (p q r : Pt) :
    maxKey sumKey p (maxKey sumKey q r) = maxKey sumKey q (maxKey sumKey p r) := by
  rw [← maxSum_assoc, maxSum_comm p q, maxSum_assoc]

theorem minDiff_comm (p q : Pt) : minKey diffKey p q = minKey diffKey q p :=
  minKey_comm diffKey_injective p q

theorem maxDiff_comm (p q : Pt) : maxKey diffKey p q = maxKey diffKey q p :=
  maxKey_comm diffKey_injective p q

theorem minKey_mem (k : Pt → CornerKey) (p q : Pt) :
    minKey k p q = p ∨ minKey k p q = q := by
  by_cases h : k q < k p
  · exact Or.inr (if_pos h)
  · exact Or.inl (if_neg h)

theorem maxKey_mem (k : Pt → CornerKey) (p q : Pt) :
    maxKey k p q = p ∨ maxKey k p q = q := by
  by_cases h : k p < k q
  · exact Or.inr (if_pos h)
  · exact Or.inl (if_neg h)

theorem minKey_mem_of {k : Pt → CornerKey} {p q : Pt} {l : List Pt}
    (hp : p ∈ l) (hq : q ∈ l) : minKey k p q ∈ l := by
  rcases minKey_mem k p q with h | h <;> rw [h] <;> assumption

theorem maxKey_mem_of {k : Pt → CornerKey} {p q : Pt} {l : List Pt}
    (hp : p ∈ l) (hq : q ∈ l) : maxKey k p q ∈ l := by
  rcases maxKey_mem k p q with h | h <;> rw [h] <;> assumption

theorem key_minKey_le_left (k : Pt → CornerKey) (p q : Pt) :
    k (minKey k p q) ≤ k p := by
  unfold minKey
  by_cases h : k q < k p
  · rw [if_pos h]; exact h.le
  · rw [if_neg h]

theorem key_minKey_le_right (k : Pt → CornerKey) (p q : Pt) :
    k (minKey k p q) ≤ k q := by
  unfold minKey
  by_cases h : k q < k p
  · rw [if_pos h]
  · rw [if_neg h]; exact not_lt.mp h

theorem key_le_maxKey_left (k : Pt → CornerKey) (p q : Pt) :
    k p ≤ k (maxKey k p q) := by
  unfold maxKey
  by_cases h : k p < k q
  · rw [if_pos h]; exact h.le
  · rw [if_neg h]

theorem key_le_maxKey_right (k : Pt → CornerKey) (p q : Pt) :
    k q ≤ k (maxKey k p q) := by
  unfold maxKey
  by_cases h : k p < k q
  · rw [if_pos h]
  · rw [if_neg h]; exact not_lt.mp h

/-- Modelled from the spec: the error taxonomy of §7. -/
inductive VisionError where
  | unsupportedFormat
  | corruptImage
  | invalidGeometry
  | singularTransform
  | invalidParameters
  | outOfBounds
deriving DecidableEq

/-- Modelled from the spec: `Quad`, an ordered quadrilateral
{top-left, top-right, bottom-right, bottom-left}. -/
structure Quad where
  tl : Pt
  tr : Pt
  br : Pt
  bl : Pt
deriving DecidableEq

/-- Twice the signed area of the quadrilateral a-b-c-d (shoelace formula);
it is zero exactly when the quad is degenerate. -/
def shoelace (a b c d : Pt) : ℚ :=
  (a.x * b.y - b.x * a.y) + (b.x * c.y - c.x * b.y) +
    (c.x * d.y - d.x * c.y) + (d.x * a.y - a.x * d.y)

/-- Modelled from the spec: the corner with the minimum (x+y) is top-left. -/
def quadTL (p1 p2 p3 p4 : Pt) : Pt :=
  minKey sumKey (minKey sumKey p1 p2) (minKey sumKey p3 p4)

/-- Modelled from the spec: the corner with the maximum (x+y) is bottom-right. -/
def quadBR (p1 p2 p3 p4 : Pt) : Pt :=
  maxKey sumKey (maxKey sumKey p1 p2) (maxKey sumKey p3 p4)

/-- Modelled from the spec: the two points remaining once the top-left and
bottom-right corners are removed. -/
def quadRest (p1 p2 p3 p4 : Pt) : List Pt :=
  ([p1, p2, p3, p4].erase (quadTL p1 p2 p3 p4)).erase (quadBR p1 p2 p3 p4)

/-- Modelled from the spec: of the two remaining points, the one with the
smaller (y−x) is top-right. -/
def quadTR (p1 p2 p3 p4 : Pt) : Pt :=
  minKey diffKey ((quadRest p1 p2 p3 p4).getD 0 (quadTL p1 p2 p3 p4))
    ((quadRest p1 p2 p3 p4).getD 1 (quadTL p1 p2 p3 p4))

/-- Modelled from the spec: the other remaining point is bottom-left. -/
def quadBL (p1 p2 p3 p4 : Pt) : Pt :=
  maxKey diffKey ((quadRest p1 p2 p3 p4).getD 0 (quadTL p1 p2 p3 p4))
    ((quadRest p1 p2 p3 p4).getD 1 (quadTL p1 p2 p3 p4))

/-- Modelled from the spec: `orderQuadCorners` classifies 4 arbitrary points
into {top-left, top-right, bottom-right, bottom-left} by the sum/difference
rule, and fails with `InvalidGeometry` when the resulting quad is degenerate
(zero signed area), which covers collinear and coincident inputs. -/
def orderQuadCorners (p1 p2 p3 p4 : Pt) : Except VisionError Quad :=
  if shoelace (quadTL p1 p2 p3 p4) (quadTR p1 p2 p3 p4)
      (quadBR p1 p2 p3 p4) (quadBL p1 p2 p3 p4) = 0 then
    .error .invalidGeometry
  else
    .ok ⟨quadTL p1 p2 p3 p4, quadTR p1 p2 p3 p4, quadBR p1 p2 p3 p4, quadBL p1 p2 p3 p4⟩

theorem quadTL_mem (p1 p2 p3 p4 : Pt) : quadTL p1 p2 p3 p4 ∈ [p1, p2, p3, p4] :=
  minKey_mem_of (minKey_mem_of (by simp) (by simp)) (minKey_mem_of (by simp) (by simp))

theorem quadBR_mem (p1 p2 p3 p4 : Pt) : quadBR p1 p2 p3 p4 ∈ [p1, p2, p3, p4] :=
  maxKey_mem_of (maxKey_mem_of (by simp) (by simp)) (maxKey_mem_of (by simp) (by simp))

theorem sumKey_quadTL_le (p1 p2 p3 p4 : Pt) {p : Pt} (hp : p ∈ [p1, p2, p3, p4]) :
    sumKey (quadTL p1 p2 p3 p4) ≤ sumKey p := by
  have h12 := key_minKey_le_left sumKey (minKey sumKey p1 p2) (minKey sumKey p3 p4)
  have h34 := key_minKey_le_right sumKey (minKey sumKey p1 p2) (minKey sumKey p3 p4)
  have hp' : p = p1 ∨ p = p2 ∨ p = p3 ∨ p = p4 := by simpa using hp
  rcases hp' with h | h | h | h <;> rw [h]
  · exact h12.trans (key_minKey_le_left sumKey p1 p2)
  · exact h12.trans (key_minKey_le_right sumKey p1 p2)
  · exact h34.trans (key_minKey_le_left sumKey p3 p4)
  · exact h34.trans (key_minKey_le_right sumKey p3 p4)

theorem le_sumKey_quadBR (p1 p2 p3 p4 : Pt) {p : Pt} (hp : p ∈ [p1, p2, p3, p4]) :
    sumKey p ≤ sumKey (quadBR p1 p2 p3 p4) := by
  have h12 := key_le_maxKey_left sumKey (maxKey sumKey p1 p2) (maxKey sumKey p3 p4)
  have h34 := key_le_maxKey_right sumKey (maxKey sumKey p1 p2) (maxKey sumKey p3 p4)
  have hp' : p = p1 ∨ p = p2 ∨ p = p3 ∨ p = p4 := by simpa using hp
  rcases hp' with h | h | h | h <;> rw [h]
  · exact (key_le_maxKey_left sumKey p1 p2).trans h12
  · exact (key_le_maxKey_right sumKey p1 p2).trans h12
  · exact (key_le_maxKey_left sumKey p3 p4).trans h34
  · exact (key_le_maxKey_right sumKey p3 p4).trans h34

theorem quadRest_length (p1 p2 p3 p4 : Pt) : (quadRest p1 p2 p3 p4).length = 2 := by
  have htl := quadTL_mem p1 p2 p3 p4
  have hbr := quadBR_mem p1 p2 p3 p4
  by_cases he : quadBR p1 p2 p3 p4 = quadTL p1 p2 p3 p4
  · have hall : ∀ p ∈ [p1, p2, p3, p4], p = quadTL p1 p2 p3 p4 := by
      intro p hp
      apply sumKey_injective
      have h1 := sumKey_quadTL_le p1 p2 p3 p4 hp
      have h2 := le_sumKey_quadBR p1 p2 p3 p4 hp
      rw [he] at h2
      exact le_antisymm h2 h1
    have e1 : p1 = quadTL p1 p2 p3 p4 := hall p1 (by simp)
    have e2 : p2 = p1 := (hall p2 (by simp)).trans e1.symm
    have e3 : p3 = p1 := (hall p3 (by simp)).trans e1.symm
    have e4 : p4 = p1 := (hall p4 (by simp)).trans e1.symm
    unfold quadRest
    rw [he, ← e1, e2, e3, e4]
    simp [List.erase_cons_head]
  · have h1 : ([p1, p2, p3, p4].erase (quadTL p1 p2 p3 p4)).length = 3 := by
      rw [List.length_erase_of_mem htl]
      rfl
    have hbr' : quadBR p1 p2 p3 p4 ∈ [p1, p2, p3, p4].erase (quadTL p1 p2 p3 p4) :=
      (List.mem_erase_of_ne he).mpr hbr
    unfold quadRest
    rw [List.length_erase_of_mem hbr', h1]

theorem quadRest_pair (p1 p2 p3 p4 : Pt) :
    ∃ u v, quadRest p1 p2 p3 p4 = [u, v] :=
  List.length_eq_two.mp (quadRest_length p1 p2 p3 p4)

theorem quadRest_subset (p1 p2 p3 p4 : Pt) :
    quadRest p1 p2 p3 p4 ⊆ [p1, p2, p3, p4] := by
  intro x hx
  exact List.erase_subset _ _ (List.erase_subset _ _ hx)

theorem quadTR_mem (p1 p2 p3 p4 : Pt) : quadTR p1 p2 p3 p4 ∈ [p1, p2, p3, p4] := by
  obtain ⟨u, v, huv⟩ := quadRest_pair p1 p2 p3 p4
  unfold quadTR
  rw [huv]
  simp only [List.getD_cons_zero, List.getD_cons_succ]
  exact minKey_mem_of (quadRest_subset p1 p2 p3 p4 (huv ▸ by simp))
    (quadRest_subset p1 p2 p3 p4 (huv ▸ by simp))

theorem quadBL_mem (p1 p2 p3 p4 : Pt) : quadBL p1 p2 p3 p4 ∈ [p1, p2, p3, p4] := by
  obtain ⟨u, v, huv⟩ := quadRest_pair p1 p2 p3 p4
  unfold quadBL
  rw [huv]
  simp only [List.getD_cons_zero, List.getD_cons_succ]
  exact maxKey_mem_of (quadRest_subset p1 p2 p3 p4 (huv ▸ by simp))
    (quadRest_subset p1 p2 p3 p4 (huv ▸ by simp))

theorem quadTL_rot (p1 p2 p3 p4 : Pt) :
    quadTL p1 p2 p3 p4 = quadTL p2 p3 p4 p1 := by
  unfold quadTL
  simp only [minSum_comm, minSum_assoc, minSum_left_comm]

theorem quadBR_rot (p1 p2 p3 p4 : Pt) :
    quadBR p1 p2 p3 p4 = quadBR p2 p3 p4 p1 := by
  unfold quadBR
  simp only [maxSum_comm, maxSum_assoc, maxSum_left_comm]

theorem quadRest_rot (p1 p2 p3 p4 : Pt) :
    (quadRest p1 p2 p3 p4).Perm (quadRest p2 p3 p4 p1) := by
  unfold quadRest
  rw [← quadTL_rot p1 p2 p3 p4, ← quadBR_rot p1 p2 p3 p4]
  refine List.Perm.erase (quadBR p1 p2 p3 p4) (List.Perm.erase (quadTL p1 p2 p3 p4) ?_)
  have h : ([p1] ++ [p2, p3, p4]).Perm ([p2, p3, p4] ++ [p1]) := List.perm_append_comm
  simpa using h

theorem perm_pair_cases {u v c d : Pt} (h : ([u, v] : List Pt).Perm [c, d]) :
    (u = c ∧ v = d) ∨ (u = d ∧ v = c) := by
  have hu : u ∈ ([c, d] : List Pt) := h.subset (by simp)
  have hu' : u = c ∨ u = d := by simpa using hu
  rcases hu' with rfl | rfl
  · left
    refine ⟨rfl, ?_⟩
    have := h.cons_inv
    simpa using (List.perm_singleton.mp this)
  · have hc : c ∈ ([u, v] : List Pt) := h.symm.subset (by simp)
    have hc' : c = u ∨ c = v := by simpa using hc
    rcases hc' with rfl | rfl
    · left
      refine ⟨rfl, ?_⟩
      have := h.cons_inv
      simpa using (List.perm_singleton.mp this)
    · right
      exact ⟨rfl, rfl⟩

theorem quadTR_rot (p1 p2 p3 p4 : Pt) :
    quadTR p1 p2 p3 p4 = quadTR p2 p3 p4 p1 := by
  obtain ⟨u, v, huv⟩ := quadRest_pair p1 p2 p3 p4
  obtain ⟨u', v', huv'⟩ := quadRest_pair p2 p3 p4 p1
  have hperm := quadRest_rot p1 p2 p3 p4
  rw [huv, huv'] at hperm
  unfold quadTR
  rw [huv, huv']
  simp only [List.getD_cons_zero, List.getD_cons_succ]
  rcases perm_pair_cases hperm with ⟨h1, h2⟩ | ⟨h1, h2⟩
  · rw [h1, h2]
  · rw [h1, h2, minDiff_comm]

theorem quadBL_rot (p1 p2 p3 p4 : Pt) :
    quadBL p1 p2 p3 p4 = quadBL p2 p3 p4 p1 := by
  obtain ⟨u, v, huv⟩ := quadRest_pair p1 p2 p3 p4
  obtain ⟨u', v', huv'⟩ := quadRest_pair p2 p3 p4 p1
  have hperm := quadRest_rot p1 p2 p3 p4
  rw [huv, huv'] at hperm
  unfold quadBL
  rw [huv, huv']
  simp only [List.getD_cons_zero, List.getD_cons_succ]
  rcases perm_pair_cases hperm with ⟨h1, h2⟩ | ⟨h1, h2⟩
  · rw [h1, h2]
  · rw [h1, h2, maxDiff_comm]

theorem orderQuadCorners_rot (p1 p2 p3 p4 : Pt) :
    orderQuadCorners p1 p2 p3 p4 = orderQuadCorners p2 p3 p4 p1 := by
  unfold orderQuadCorners
  rw [quadTL_rot, quadTR_rot, quadBR_rot, quadBL_rot]

/-- Condition that a point lies on the line a·x + b·y = c. -/
def OnLine (a b c : ℚ) (p : Pt) : Prop := a * p.x + b * p.y = c

/-- Four points are collinear (which includes the case where some or all of
them coincide on that line): they all satisfy one nontrivial linear
equation. -/
def Collinear4 (p1 p2 p3 p4 : Pt) : Prop :=
  ∃ a b c : ℚ, (a ≠ 0 ∨ b ≠ 0) ∧
    OnLine a b c p1 ∧ OnLine a b c p2 ∧ OnLine a b c p3 ∧ OnLine a b c p4

theorem shoelace_eq_zero_of_onLine {a b c : ℚ} (hab : a ≠ 0 ∨ b ≠ 0)
    {q1 q2 q3 q4 : Pt} (h1 : OnLine a b c q1) (h2 : OnLine a b c q2)
    (h3 : OnLine a b c q3) (h4 : OnLine a b c q4) :
    shoelace q1 q2 q3 q4 = 0 := by
  unfold OnLine at h1 h2 h3 h4
  rcases hab with ha | hb
  · have key : a * shoelace q1 q2 q3 q4 = 0 := by
      unfold shoelace
      linear_combination (q2.y - q4.y) * h1 + (q3.y - q1.y) * h2 +
        (q4.y - q2.y) * h3 + (q1.y - q3.y) * h4
    exact (mul_eq_zero.mp key).resolve_left ha
  · have key : b * shoelace q1 q2 q3 q4 = 0 := by
      unfold shoelace
      linear_combination (q4.x - q2.x) * h1 + (q1.x - q3.x) * h2 +
        (q2.x - q4.x) * h3 + (q3.x - q1.x) * h4
    exact (mul_eq_zero.mp key).resolve_left hb

theorem onLine_of_mem {a b c : ℚ} {p1 p2 p3 p4 p : Pt} (hp : p ∈ [p1, p2, p3, p4])
    (h1 : OnLine a b c p1) (h2 : OnLine a b c p2) (h3 : OnLine a b c p3)
    (h4 : OnLine a b c p4) : OnLine a b c p := by
  have hp' : p = p1 ∨ p = p2 ∨ p = p3 ∨ p = p4 := by simpa using hp
  rcases hp' with h | h | h | h <;> rw [h] <;> assumption

theorem orderQuadCorners_collinear {p1 p2 p3 p4 : Pt} (h : Collinear4 p1 p2 p3 p4) :
    orderQuadCorners p1 p2 p3 p4 = .error .invalidGeometry := by
  obtain ⟨a, b, c, hab, h1, h2, h3, h4⟩ := h
  have hz : shoelace (quadTL p1 p2 p3 p4) (quadTR p1 p2 p3 p4)
      (quadBR p1 p2 p3 p4) (quadBL p1 p2 p3 p4) = 0 :=
    shoelace_eq_zero_of_onLine hab
      (onLine_of_mem (quadTL_mem p1 p2 p3 p4) h1 h2 h3 h4)
      (onLine_of_mem (quadTR_mem p1 p2 p3 p4) h1 h2 h3 h4)
      (onLine_of_mem (quadBR_mem p1 p2 p3 p4) h1 h2 h3 h4)
      (onLine_of_mem (quadBL_mem p1 p2 p3 p4) h1 h2 h3 h4)
  unfold orderQuadCorners
  rw [if_pos hz]

/-- Claim C1: `orderQuadCorners` returns the same ordered quad for any
cyclic permutation of its 4 input points (stated for all three nontrivial
rotations, and proved for arbitrary inputs, in particular for pairwise
distinct non-collinear ones), and every collinear-or-coincident input
(all four points on one line, hence zero signed area) fails with
`InvalidGeometry`. -/
theorem orderQuadCorners_cyclic_and_collinear (p1 p2 p3 p4 : Pt) :
    (orderQuadCorners p1 p2 p3 p4 = orderQuadCorners p2 p3 p4 p1 ∧
     orderQuadCorners p1 p2 p3 p4 = orderQuadCorners p3 p4 p1 p2 ∧
     orderQuadCorners p1 p2 p3 p4 = orderQuadCorners p4 p1 p2 p3) ∧
    (Collinear4 p1 p2 p3 p4 →
      orderQuadCorners p1 p2 p3 p4 = .error .invalidGeometry) := by
  refine ⟨⟨orderQuadCorners_rot p1 p2 p3 p4, ?_, ?_⟩, orderQuadCorners_collinear⟩
  · rw [orderQuadCorners_rot p1 p2 p3 p4, orderQuadCorners_rot p2 p3 p4 p1]
  · rw [orderQuadCorners_rot p1 p2 p3 p4, orderQuadCorners_rot p2 p3 p4 p1,
      orderQuadCorners_rot p3 p4 p1 p2]

/-- Witness for C1 at the spec's own example of a collinear input,
(0,0), (10,0), (20,0), (5,0): ordering fails with `InvalidGeometry`. -/
theorem orderQuadCorners_cyclic_and_collinear_witness :
    orderQuadCorners ⟨0, 0⟩ ⟨10, 0⟩ ⟨20, 0⟩ ⟨5, 0⟩ =
      Except.error VisionError.invalidGeometry :=
  (orderQuadCorners_cyclic_and_collinear ⟨0, 0⟩ ⟨10, 0⟩ ⟨20, 0⟩ ⟨5, 0⟩).2
    ⟨0, 1, 0, Or.inr one_ne_zero, by norm_num [OnLine], by norm_num [OnLine],
      by norm_num [OnLine], by norm_num [OnLine]⟩

/-- Modelled from the spec: one 8-bit pixel with red, green, blue and alpha
channels; the alpha channel is meaningful only when the owning image has 4
channels. -/
structure Pixel where
  r : ℕ
  g : ℕ
  b : ℕ
  a : ℕ
deriving DecidableEq

/-- Modelled from the spec: `RasterImage`, an owned decoded pixel buffer in
row-major order with width, height and channel count. -/
structure RasterImage where
  width : ℕ
  height : ℕ
  channels : ℕ
  data : List Pixel
deriving DecidableEq

/-- Condition that every channel of a pixel is an 8-bit value. -/
def Pixel.InRange (p : Pixel) : Prop :=
  p.r ≤ 255 ∧ p.g ≤ 255 ∧ p.b ≤ 255 ∧ p.a ≤ 255

instance (p : Pixel) : Decidable p.InRange := by
  unfold Pixel.InRange
  infer_instance

/-- Modelled from the spec: the `RasterImage` invariant of §3 — positive
dimensions, channel count 3 or 4, a full pixel buffer, 8-bit channels. -/
def RasterImage.Valid (img : RasterImage) : Prop :=
  0 < img.width ∧ 0 < img.height ∧ (img.channels = 3 ∨ img.channels = 4) ∧
    img.data.length = img.width * img.height ∧ ∀ p ∈ img.data, p.InRange

instance (img : RasterImage) : Decidable img.Valid := by
  unfold RasterImage.Valid
  infer_instance

/-- Clamp an integer channel value into the byte range [0, 255]. -/
def clampByte (v : ℤ) : ℕ := (max 0 (min v 255)).toNat

/-- Modelled from the spec: `adjustBrightness(image, offset)`, per channel
output = clamp(input + offset, 0, 255), alpha unchanged; the offset is
never rejected, out-of-range values simply saturate through the clamp. -/
def adjustBrightness (img : RasterImage) (offset : ℤ) : RasterImage :=
  { img with data := img.data.map (fun p =>
      { r := clampByte ((p.r : ℤ) + offset), g := clampByte ((p.g : ℤ) + offset),
        b := clampByte ((p.b : ℤ) + offset), a := p.a }) }

/-- Modelled from the spec: the contrast formula
clamp(128 + (input − 128) × (1 + factor), 0, 255) on one channel, rounded
to the nearest integer. -/
def contrastByte (factor : ℚ) (v : ℕ) : ℕ :=
  clampByte (round ((128 : ℚ) + ((v : ℚ) - 128) * (1 + factor)))

/-- Modelled from the spec: `adjustContrast(image, factor)`, per channel,
alpha unchanged. -/
def adjustContrast (img : RasterImage) (factor : ℚ) : RasterImage :=
  { img with data := img.data.map (fun p =>
      { r := contrastByte factor p.r, g := contrastByte factor p.g,
        b := contrastByte factor p.b, a := p.a }) }

theorem clampByte_natCast {n : ℕ} (h : n ≤ 255) : clampByte (n : ℤ) = n := by
  unfold clampByte
  omega

theorem clampByte_le (v : ℤ) : clampByte v ≤ 255 := by
  unfold clampByte
  omega

theorem contrastByte_zero {v : ℕ} (h : v ≤ 255) : contrastByte 0 v = v := by
  unfold contrastByte
  have he : ((128 : ℚ) + ((v : ℚ) - 128) * (1 + 0)) = (v : ℚ) := by ring
  rw [he, round_natCast, clampByte_natCast h]

/-- Claim C2: with offset 0 and factor 0, `adjustBrightness` and
`adjustContrast` are identity transforms on every valid image. -/
theorem adjust_zero_identity (img : RasterImage) (h : img.Valid) :
    adjustBrightness img 0 = img ∧ adjustContrast img 0 = img := by
  obtain ⟨-, -, -, -, hin⟩ := h
  constructor
  · unfold adjustBrightness
    cases img with
    | mk w ht c d =>
      simp only [RasterImage.mk.injEq, true_and]
      have hmap : d.map (fun p =>
          Pixel.mk (clampByte ((p.r : ℤ) + 0)) (clampByte ((p.g : ℤ) + 0))
            (clampByte ((p.b : ℤ) + 0)) p.a) = d.map id := by
        apply List.map_congr_left
        intro p hp
        obtain ⟨hr, hg, hb, -⟩ := hin p hp
        cases p
        simp only [id]
        simp only [Pixel.mk.injEq]
        refine ⟨?_, ?_, ?_, trivial⟩ <;> simp only [add_zero] <;>
          exact clampByte_natCast (by assumption)
      rw [hmap, List.map_id]
  · unfold adjustContrast
    cases img with
    | mk w ht c d =>
      simp only [RasterImage.mk.injEq, true_and]
      have hmap : d.map (fun p =>
          Pixel.mk (contrastByte 0 p.r) (contrastByte 0 p.g)
            (contrastByte 0 p.b) p.a) = d.map id := by
        apply List.map_congr_left
        intro p hp
        obtain ⟨hr, hg, hb, -⟩ := hin p hp
        cases p
        simp only [id]
        simp only [Pixel.mk.injEq]
        exact ⟨contrastByte_zero hr, contrastByte_zero hg, contrastByte_zero hb, trivial⟩
      rw [hmap, List.map_id]

/-- Witness for C2 on a concrete valid 1×1 RGB image. -/
theorem adjust_zero_identity_witness :
    adjustBrightness ⟨1, 1, 3, [⟨1, 2, 3, 255⟩]⟩ 0 = ⟨1, 1, 3, [⟨1, 2, 3, 255⟩]⟩ ∧
      adjustContrast ⟨1, 1, 3, [⟨1, 2, 3, 255⟩]⟩ 0 = ⟨1, 1, 3, [⟨1, 2, 3, 255⟩]⟩ :=
  adjust_zero_identity ⟨1, 1, 3, [⟨1, 2, 3, 255⟩]⟩ (by decide)

/-- Claim C7: `adjustBrightness` is total — it accepts every offset,
including ones far outside the conventional −100..100 range, returns a
valid image for every valid input, and clamps at the byte boundary (an
offset ≥ 255 saturates every colour channel at 255 rather than failing). -/
theorem adjustBrightness_total (img : RasterImage) (offset : ℤ) (h : img.Valid) :
    (adjustBrightness img offset).Valid ∧
      (255 ≤ offset → ∀ p ∈ (adjustBrightness img offset).data,
        p.r = 255 ∧ p.g = 255 ∧ p.b = 255) := by
  obtain ⟨hw, hh, hc, hlen, hin⟩ := h
  constructor
  · refine ⟨hw, hh, hc, ?_, ?_⟩
    · simpa [adjustBrightness] using hlen
    · intro p hp
      simp only [adjustBrightness, List.mem_map] at hp
      obtain ⟨q, hq, rfl⟩ := hp
      obtain ⟨-, -, -, ha⟩ := hin q hq
      exact ⟨clampByte_le _, clampByte_le _, clampByte_le _, ha⟩
  · intro hoff p hp
    simp only [adjustBrightness, List.mem_map] at hp
    obtain ⟨q, hq, rfl⟩ := hp
    refine ⟨?_, ?_, ?_⟩
    · show clampByte ((q.r : ℤ) + offset) = 255
      unfold clampByte
      omega
    · show clampByte ((q.g : ℤ) + offset) = 255
      unfold clampByte
      omega
    · show clampByte ((q.b : ℤ) + offset) = 255
      unfold clampByte
      omega

/-- Witness for C7: offset 300 on a concrete valid image stays valid and
saturates all colour channels. -/
theorem adjustBrightness_total_witness :
    (adjustBrightness ⟨1, 1, 4, [⟨10, 20, 30, 40⟩]⟩ 300).Valid ∧
      ∀ p ∈ (adjustBrightness ⟨1, 1, 4, [⟨10, 20, 30, 40⟩]⟩ 300).data,
        p.r = 255 ∧ p.g = 255 ∧ p.b = 255 :=
  ⟨(adjustBrightness_total ⟨1, 1, 4, [⟨10, 20, 30, 40⟩]⟩ 300 (by decide)).1,
    (adjustBrightness_total ⟨1, 1, 4, [⟨10, 20, 30, 40⟩]⟩ 300 (by decide)).2 (by norm_num)⟩

/-- Modelled from the spec: a normalized anchor coordinate resolved to an
absolute pixel column on the base image. -/
def resolveAnchorX (base : RasterImage) (ax : ℚ) : ℤ := ⌊ax * base.width⌋

/-- Modelled from the spec: a normalized anchor coordinate resolved to an
absolute pixel row on the base image. -/
def resolveAnchorY (base : RasterImage) (ay : ℚ) : ℤ := ⌊ay * base.height⌋

/-- Modelled from the spec: alpha-blend one overlay pixel over one base
pixel, using the overlay's own alpha channel when it has one and treating a
3-channel overlay as fully opaque. -/
def blendPixel (bp ov : Pixel) (ovChannels : ℕ) : Pixel :=
  let alpha := if ovChannels = 4 then ov.a else 255
  { r := (ov.r * alpha + bp.r * (255 - alpha)) / 255,
    g := (ov.g * alpha + bp.g * (255 - alpha)) / 255,
    b := (ov.b * alpha + bp.b * (255 - alpha)) / 255,
    a := bp.a }

/-- Modelled from the spec: the blended pixel buffer — the overlay's
top-left corner is placed at the resolved anchor (px, py), every base pixel
under the overlay's footprint is alpha-blended, and overlay regions outside
the base canvas are clipped because only base coordinates are produced. -/
def overlaidData (base overlay : RasterImage) (px py : ℤ) : List Pixel :=
  ((List.range base.height).map (fun j => (List.range base.width).map (fun i =>
    let bp := base.data.getD (j * base.width + i) ⟨0, 0, 0, 255⟩
    if px ≤ (i : ℤ) ∧ (i : ℤ) < px + overlay.width ∧
        py ≤ (j : ℤ) ∧ (j : ℤ) < py + overlay.height then
      blendPixel bp
        (overlay.data.getD
          (((j : ℤ) - py).toNat * overlay.width + ((i : ℤ) - px).toNat) ⟨0, 0, 0, 0⟩)
        overlay.channels
    else bp))).flatten

/-- Modelled from the spec: `compositeOverlay` — fails with `OutOfBounds`
exactly when the resolved anchor falls outside [0,width)×[0,height) of the
base image; otherwise blends the (possibly clipped) overlay over the base. -/
def compositeOverlay (base overlay : RasterImage) (ax ay : ℚ) :
    Except VisionError RasterImage :=
  if resolveAnchorX base ax < 0 ∨ (base.width : ℤ) ≤ resolveAnchorX base ax ∨
      resolveAnchorY base ay < 0 ∨ (base.height : ℤ) ≤ resolveAnchorY base ay then
    .error .outOfBounds
  else
    .ok { base with
      data := overlaidData base overlay (resolveAnchorX base ax) (resolveAnchorY base ay) }

/-- Claim C6: `compositeOverlay` fails with `OutOfBounds` if and only if
the resolved anchor lies outside [0,width)×[0,height) of the base image;
whenever the anchor is inside those bounds a complete result image of the
base dimensions is produced — an overlay extending past the base canvas is
clipped and never yields an error. -/
theorem compositeOverlay_bounds (base overlay : RasterImage) (ax ay : ℚ) :
    (compositeOverlay base overlay ax ay = .error .outOfBounds ↔
      ¬ (0 ≤ resolveAnchorX base ax ∧ resolveAnchorX base ax < (base.width : ℤ) ∧
          0 ≤ resolveAnchorY base ay ∧ resolveAnchorY base ay < (base.height : ℤ))) ∧
    ((0 ≤ resolveAnchorX base ax ∧ resolveAnchorX base ax < (base.width : ℤ) ∧
        0 ≤ resolveAnchorY base ay ∧ resolveAnchorY base ay < (base.height : ℤ)) →
      ∃ out, compositeOverlay base overlay ax ay = .ok out ∧
        out.width = base.width ∧ out.height = base.height) := by
  unfold compositeOverlay
  by_cases hc : resolveAnchorX base ax < 0 ∨ (base.width : ℤ) ≤ resolveAnchorX base ax ∨
      resolveAnchorY base ay < 0 ∨ (base.height : ℤ) ≤ resolveAnchorY base ay
  · rw [if_pos hc]
    constructor
    · simp only [true_iff]
      intro hin
      rcases hin with ⟨h1, h2, h3, h4⟩
      rcases hc with h | h | h | h <;> omega
    · intro hin
      rcases hin with ⟨h1, h2, h3, h4⟩
      rcases hc with h | h | h | h <;> omega
  · rw [if_neg hc]
    constructor
    · constructor
      · intro h
        exact absurd h (by simp)
      · intro h
        exfalso
        apply h
        push_neg at hc
        exact ⟨hc.1, hc.2.1, hc.2.2.1, hc.2.2.2⟩
    · intro _
      exact ⟨_, rfl, rfl, rfl⟩

/-- Witness for C6: a 3×3 overlay composited onto a 2×2 base at anchor
(0,0) is inside bounds, so the call succeeds even though the overlay
extends past the base canvas. -/
theorem compositeOverlay_bounds_witness :
    ∃ out, compositeOverlay ⟨2, 2, 3, List.replicate 4 ⟨9, 9, 9, 255⟩⟩
        ⟨3, 3, 3, List.replicate 9 ⟨1, 1, 1, 255⟩⟩ 0 0 = .ok out ∧
      out.width = 2 ∧ out.height = 2 :=
  (compositeOverlay_bounds ⟨2, 2, 3, List.replicate 4 ⟨9, 9, 9, 255⟩⟩
      ⟨3, 3, 3, List.replicate 9 ⟨1, 1, 1, 255⟩⟩ 0 0).2
    (by norm_num [resolveAnchorX, resolveAnchorY])

/-- Embedded from `src/api/vision.ts` / `WorkspaceView.vue`: the fields of
a document-scan response the frontend consumes. -/
structure ScanResponse where
  processedImage : String
  savedOriginal : Option String
  savedProcessed : Option String
deriving DecidableEq

/-- Embedded from `src/services/http.ts`: an HTTP failure as seen by the
frontend — `status` is `error.response?.status` (none when there was no
response at all). -/
structure HttpErrorModel where
  status : Option ℕ
  message : String
deriving DecidableEq

/-- Embedded from `WorkspaceView.vue` lines 41–53: the reactive refs of the
workspace that the handlers read and write.  Upload files are modelled as
numeric handles; `originalPreview` holds the object URL string. -/
structure WorkspaceState where
  uploadFile : Option ℕ
  originalPreview : String
  processedPreview : String
  loading : Bool
  saveOriginal : Bool
  saveProcessed : Bool
  documentPoints : List Pt
deriving DecidableEq

/-- Embedded from `WorkspaceView.vue`: `URL.createObjectURL`, modelled as an
injective handle-to-string map. -/
def objectURL (f : ℕ) : String := "blob:" ++ toString f

/-- Embedded from `WorkspaceView.vue` lines 89–100 (`assignFile`): clears
the previews and selections, stores the new file (or none) and rebuilds the
original preview. -/
def assignFile (st : WorkspaceState) (file : Option ℕ) : WorkspaceState :=
  { uploadFile := file,
    originalPreview := match file with | some f => objectURL f | none => "",
    processedPreview := "",
    loading := st.loading,
    saveOriginal := false,
    saveProcessed := true,
    documentPoints := [] }

/-- Embedded from `WorkspaceView.vue` lines 102–108 (`handleFileChange`):
both the missing-raw-file branch and the normal branch route through
`assignFile`. -/
def handleFileChange (st : WorkspaceState) (raw : Option ℕ) : WorkspaceState :=
  assignFile st raw

/-- Embedded from `WorkspaceView.vue` lines 237–245 (`handleScanAreaClick`):
appends a clicked point, but only when fewer than 4 points exist, a preview
is shown, and the computed normalized coordinates lie inside [0,1]×[0,1];
out-of-range clicks are discarded.  The coordinates x, y stand for the
values `(event.clientX - rect.left) / rect.width` and its y analogue. -/
def handleScanAreaClick (st : WorkspaceState) (x y : ℚ) : WorkspaceState :=
  if 4 ≤ st.documentPoints.length ∨ st.originalPreview = "" then st
  else if x < 0 ∨ 1 < x ∨ y < 0 ∨ 1 < y then st
  else { st with documentPoints := st.documentPoints ++ [⟨x, y⟩] }

/-- Embedded from `WorkspaceView.vue` lines 258–268 (`handlePointDragMove`):
moves the dragged point to the new normalized coordinates unless they fall
outside [0,1]×[0,1]; `dragIdx` is none when no drag is active or the
pointer id does not match. -/
def handlePointDragMove (st : WorkspaceState) (dragIdx : Option ℕ) (x y : ℚ) :
    WorkspaceState :=
  match dragIdx with
  | none => st
  | some i =>
    if x < 0 ∨ 1 < x ∨ y < 0 ∨ 1 < y then st
    else { st with documentPoints := st.documentPoints.set i ⟨x, y⟩ }

/-- Embedded from `WorkspaceView.vue` lines 280–282: drops the most
recently added point. -/
def undoDocumentPoint (st : WorkspaceState) : WorkspaceState :=
  { st with documentPoints := st.documentPoints.dropLast }

/-- Embedded from `WorkspaceView.vue` lines 284–286: clears the selection. -/
def resetDocumentPoints (st : WorkspaceState) : WorkspaceState :=
  { st with documentPoints := ([] : List Pt) }

/-- Embedded from `WorkspaceView.vue` lines 156–190 (`handleDocumentScan`):
returns the new state together with whether a scan request was issued.
With no upload or without exactly 4 points the handler warns and returns
without calling `scanDocument`.  Otherwise the call is issued; on success
the processed preview is set and the points are cleared, on failure only an
error message is shown; the `finally` block resets `loading` in both
cases. -/
def handleDocumentScan (st : WorkspaceState) (api : Except HttpErrorModel ScanResponse) :
    WorkspaceState × Bool :=
  if st.uploadFile.isNone then (st, false)
  else if st.documentPoints.length ≠ 4 then (st, false)
  else
    match api with
    | .ok resp =>
      ({ st with
          loading := false,
          processedPreview := resp.processedImage,
          documentPoints := [] }, true)
    | .error _ => ({ st with loading := false }, true)

/-- Modelled from the spec: the DocumentScan arm of the dispatcher enforces
its parameter precondition — exactly 4 points — and fails with
`InvalidParameters` otherwise; with 4 points it proceeds to the geometry
stage (embedded here up to the corner ordering that the warp consumes). -/
def dispatchDocumentScan (img : RasterImage) (points : List Pt) :
    Except VisionError Quad :=
  match points with
  | [p1, p2, p3, p4] => orderQuadCorners p1 p2 p3 p4
  | _ => .error .invalidParameters

/-- Claim C3: a point list whose length is not 4 is rejected by the
dispatcher with `InvalidParameters`, and the frontend's
`handleDocumentScan` issues a scan request only when `documentPoints` has
length exactly 4. -/
theorem documentScan_requires_four_points :
    (∀ (img : RasterImage) (points : List Pt), points.length ≠ 4 →
      dispatchDocumentScan img points = .error .invalidParameters) ∧
    (∀ (st : WorkspaceState) (api : Except HttpErrorModel ScanResponse),
      (handleDocumentScan st api).2 = true → st.documentPoints.length = 4) := by
  constructor
  · intro img points h
    unfold dispatchDocumentScan
    split
    · exact absurd rfl h
    · rfl
  · intro st api h
    unfold handleDocumentScan at h
    by_cases h1 : st.uploadFile.isNone
    · rw [if_pos h1] at h
      simp at h
    · rw [if_neg h1] at h
      by_cases h2 : st.documentPoints.length ≠ 4
      · rw [if_pos h2] at h
        simp at h
      · exact not_ne_iff.mp h2

/-- Witness for C3: an empty point list is rejected with
`InvalidParameters`, and a concrete state from which a request is issued
indeed holds 4 points. -/
theorem documentScan_requires_four_points_witness :
    dispatchDocumentScan ⟨1, 1, 3, [⟨0, 0, 0, 255⟩]⟩ [] = .error .invalidParameters ∧
      (WorkspaceState.mk (some 1) "blob:1" "" false false true
        [⟨0, 0⟩, ⟨1, 0⟩, ⟨1, 1⟩, ⟨0, 1⟩]).documentPoints.length = 4 :=
  ⟨documentScan_requires_four_points.1 ⟨1, 1, 3, [⟨0, 0, 0, 255⟩]⟩ [] (by decide),
    documentScan_requires_four_points.2
      (WorkspaceState.mk (some 1) "blob:1" "" false false true
        [⟨0, 0⟩, ⟨1, 0⟩, ⟨1, 1⟩, ⟨0, 1⟩])
      (.ok ⟨"processed", none, none⟩) rfl⟩

/-- Claim C5: the document-scan call is all-or-nothing for the caller's
state — when the request fails, `processedPreview` and `documentPoints`
are exactly as before the call; when no request is issued the whole state
is unchanged; and they are updated precisely on success. -/
theorem documentScan_all_or_nothing :
    (∀ (st : WorkspaceState) (e : HttpErrorModel),
      (handleDocumentScan st (.error e)).1.processedPreview = st.processedPreview ∧
      (handleDocumentScan st (.error e)).1.documentPoints = st.documentPoints) ∧
    (∀ (st : WorkspaceState) (api : Except HttpErrorModel ScanResponse),
      (handleDocumentScan st api).2 = false → (handleDocumentScan st api).1 = st) ∧
    (∀ (st : WorkspaceState) (resp : ScanResponse),
      (handleDocumentScan st (.ok resp)).2 = true →
        (handleDocumentScan st (.ok resp)).1.processedPreview = resp.processedImage ∧
        (handleDocumentScan st (.ok resp)).1.documentPoints = []) := by
  refine ⟨?_, ?_, ?_⟩
  · intro st e
    unfold handleDocumentScan
    by_cases h1 : st.uploadFile.isNone
    · rw [if_pos h1]
      exact ⟨rfl, rfl⟩
    · rw [if_neg h1]
      by_cases h2 : st.documentPoints.length ≠ 4
      · rw [if_pos h2]
        exact ⟨rfl, rfl⟩
      · rw [if_neg h2]
        exact ⟨rfl, rfl⟩
  · intro st api h
    unfold handleDocumentScan at h ⊢
    by_cases h1 : st.uploadFile.isNone
    · rw [if_pos h1]
    · rw [if_neg h1] at h ⊢
      by_cases h2 : st.documentPoints.length ≠ 4
      · rw [if_pos h2]
      · rw [if_neg h2] at h ⊢
        cases api <;> simp at h
  · intro st resp h
    unfold handleDocumentScan at h ⊢
    by_cases h1 : st.uploadFile.isNone
    · rw [if_pos h1] at h
      simp at h
    · rw [if_neg h1] at h ⊢
      by_cases h2 : st.documentPoints.length ≠ 4
      · rw [if_pos h2] at h
        simp at h
      · rw [if_neg h2]
        exact ⟨rfl, rfl⟩

/-- Witness for C5 at concrete states: a failing call leaves the preview
and points as they were, a guarded call returns the state unchanged, and a
successful call installs the response and clears the points. -/
theorem documentScan_all_or_nothing_witness :
    ((handleDocumentScan
        (WorkspaceState.mk (some 1) "blob:1" "old" false false true
          [⟨0, 0⟩, ⟨1, 0⟩, ⟨1, 1⟩, ⟨0, 1⟩])
        (.error ⟨some 500, "boom"⟩)).1.processedPreview = "old" ∧
      (handleDocumentScan
        (WorkspaceState.mk (some 1) "blob:1" "old" false false true
          [⟨0, 0⟩, ⟨1, 0⟩, ⟨1, 1⟩, ⟨0, 1⟩])
        (.error ⟨some 500, "boom"⟩)).1.documentPoints =
          [⟨0, 0⟩, ⟨1, 0⟩, ⟨1, 1⟩, ⟨0, 1⟩]) ∧
    (handleDocumentScan (WorkspaceState.mk none "" "old" false false true [])
      (.ok ⟨"new", none, none⟩)).1 =
        WorkspaceState.mk none "" "old" false false true [] ∧
    ((handleDocumentScan
        (WorkspaceState.mk (some 1) "blob:1" "old" false false true
          [⟨0, 0⟩, ⟨1, 0⟩, ⟨1, 1⟩, ⟨0, 1⟩])
        (.ok ⟨"new", none, none⟩)).1.processedPreview = "new" ∧
      (handleDocumentScan
        (WorkspaceState.mk (some 1) "blob:1" "old" false false true
          [⟨0, 0⟩, ⟨1, 0⟩, ⟨1, 1⟩, ⟨0, 1⟩])
        (.ok ⟨"new", none, none⟩)).1.documentPoints = []) :=
  ⟨documentScan_all_or_nothing.1
      (WorkspaceState.mk (some 1) "blob:1" "old" false false true
        [⟨0, 0⟩, ⟨1, 0⟩, ⟨1, 1⟩, ⟨0, 1⟩]) ⟨some 500, "boom"⟩,
    documentScan_all_or_nothing.2.1
      (WorkspaceState.mk none "" "old" false false true [])
      (.ok ⟨"new", none, none⟩) rfl,
    documentScan_all_or_nothing.2.2
      (WorkspaceState.mk (some 1) "blob:1" "old" false false true
        [⟨0, 0⟩, ⟨1, 0⟩, ⟨1, 1⟩, ⟨0, 1⟩])
      ⟨"new", none, none⟩ rfl⟩

/-- Condition that every stored document point is a normalized coordinate
in [0,1]×[0,1]. -/
def NormPts (l : List Pt) : Prop :=
  ∀ p ∈ l, 0 ≤ p.x ∧ p.x ≤ 1 ∧ 0 ≤ p.y ∧ p.y ≤ 1

instance (l : List Pt) : Decidable (NormPts l) := by
  unfold NormPts
  infer_instance

/-- Claim C4: every operation that modifies `documentPoints` — clicking a
new point, dragging a point, undo, reset, and file re-assignment —
preserves the invariant that all stored coordinates are normalized to
[0,1]×[0,1]; coordinates computed outside that square are discarded. -/
theorem documentPoints_normalized (st : WorkspaceState) (x y : ℚ)
    (dragIdx : Option ℕ) (file : Option ℕ) (h : NormPts st.documentPoints) :
    NormPts (handleScanAreaClick st x y).documentPoints ∧
    NormPts (handlePointDragMove st dragIdx x y).documentPoints ∧
    NormPts (undoDocumentPoint st).documentPoints ∧
    NormPts (resetDocumentPoints st).documentPoints ∧
    NormPts (assignFile st file).documentPoints := by
  refine ⟨?_, ?_, ?_, ?_, ?_⟩
  · unfold handleScanAreaClick
    split
    · exact h
    · by_cases hguard : x < 0 ∨ 1 < x ∨ y < 0 ∨ 1 < y
      · rw [if_pos hguard]
        exact h
      · rw [if_neg hguard]
        push_neg at hguard
        intro p hp
        rcases List.mem_append.mp hp with hp' | hp'
        · exact h p hp'
        · have hp'' : p = Pt.mk x y := by simpa using hp'
          rw [hp'']
          exact ⟨hguard.1, hguard.2.1, hguard.2.2.1, hguard.2.2.2⟩
  · cases dragIdx with
    | none => exact h
    | some i =>
      by_cases hguard : x < 0 ∨ 1 < x ∨ y < 0 ∨ 1 < y
      · simp only [handlePointDragMove]
        rw [if_pos hguard]
        exact h
      · simp only [handlePointDragMove]
        rw [if_neg hguard]
        push_neg at hguard
        intro p hp
        rcases List.mem_or_eq_of_mem_set hp with hp' | hp'
        · exact h p hp'
        · rw [hp']
          exact ⟨hguard.1, hguard.2.1, hguard.2.2.1, hguard.2.2.2⟩
  · intro p hp
    exact h p (List.dropLast_subset _ hp)
  · intro p hp
    simp [resetDocumentPoints] at hp
  · intro p hp
    simp [assignFile] at hp

/-- Witness for C4 at a concrete in-range state with an out-of-range click
and drag coordinate pair (2, 0), which the guards discard. -/
theorem documentPoints_normalized_witness :
    NormPts (handleScanAreaClick
      (WorkspaceState.mk (some 1) "blob:1" "" false false true [⟨0, 1⟩]) 2 0).documentPoints ∧
    NormPts (handlePointDragMove
      (WorkspaceState.mk (some 1) "blob:1" "" false false true [⟨0, 1⟩])
      (some 0) 2 0).documentPoints ∧
    NormPts (undoDocumentPoint
      (WorkspaceState.mk (some 1) "blob:1" "" false false true [⟨0, 1⟩])).documentPoints ∧
    NormPts (resetDocumentPoints
      (WorkspaceState.mk (some 1) "blob:1" "" false false true [⟨0, 1⟩])).documentPoints ∧
    NormPts (assignFile
      (WorkspaceState.mk (some 1) "blob:1" "" false false true [⟨0, 1⟩])
      none).documentPoints :=
  documentPoints_normalized
    (WorkspaceState.mk (some 1) "blob:1" "" false false true [⟨0, 1⟩])
    2 0 (some 0) none (by decide)

/-- Claim C8: after every call to `assignFile` (selection, replacement or
removal of the upload) the workspace shows no stale transform result:
`processedPreview` is empty, `saveOriginal` is false, `saveProcessed` is
true and `documentPoints` is empty; `handleFileChange` routes every branch
through `assignFile`. -/
theorem assignFile_resets (st : WorkspaceState) (file : Option ℕ) (raw : Option ℕ) :
    (assignFile st file).processedPreview = "" ∧
    (assignFile st file).saveOriginal = false ∧
    (assignFile st file).saveProcessed = true ∧
    (assignFile st file).documentPoints = [] ∧
    handleFileChange st raw = assignFile st raw :=
  ⟨rfl, rfl, rfl, rfl, rfl⟩

/-- Embedded from `src/stores/auth.ts` lines 3–8: the stored user profile. -/
structure UserProfile where
  id : String
  name : String
  email : String
  phone : Option String
deriving DecidableEq

/-- Embedded from `src/stores/auth.ts` lines 18–26 (`readUserFromStorage`):
`stored` is `localStorage.getItem('user_profile')` (none when the key is
missing); `parse` stands for `JSON.parse`, which either produces a profile
or throws — modelled as `Except`.  The JavaScript falsiness check
`if (!stored) return null` also catches the empty string, and the
`try/catch` converts every parse failure into `null`, so the function is
total for every storage content and every parse behaviour. -/
def readUserFromStorage (stored : Option String)
    (parse : String → Except String UserProfile) : Option UserProfile :=
  match stored with
  | none => none
  | some s =>
    if s = "" then none
    else
      match parse s with
      | .ok u => some u
      | .error _ => none

/-- Claim C9: `readUserFromStorage` is total over every possible
localStorage content: a missing key, an empty value, or a value `JSON.parse`
rejects all yield `null` instead of an exception, and a parsable value
yields the parsed profile. -/
theorem readUserFromStorage_total (parse : String → Except String UserProfile)
    (stored : Option String) :
    (stored = none → readUserFromStorage stored parse = none) ∧
    (∀ s, stored = some s → s = "" → readUserFromStorage stored parse = none) ∧
    (∀ s e, stored = some s → parse s = .error e →
      readUserFromStorage stored parse = none) ∧
    (∀ s u, stored = some s → s ≠ "" → parse s = .ok u →
      readUserFromStorage stored parse = some u) := by
  refine ⟨?_, ?_, ?_, ?_⟩
  · intro h
    rw [h]
    rfl
  · intro s hs he
    rw [hs]
    simp only [readUserFromStorage]
    rw [if_pos he]
  · intro s e hs hp
    rw [hs]
    simp only [readUserFromStorage]
    by_cases he : s = ""
    · rw [if_pos he]
    · rw [if_neg he, hp]
  · intro s u hs he hp
    rw [hs]
    simp only [readUserFromStorage]
    rw [if_neg he, hp]

/-- Witness for C9: a parse function that always throws still yields
`null` on a concrete stored string. -/
theorem readUserFromStorage_total_witness :
    readUserFromStorage (some "not json") (fun _ => .error "invalid JSON") = none :=
  (readUserFromStorage_total (fun _ => .error "invalid JSON") (some "not json")).2.2.1
    "not json" "invalid JSON" rfl rfl

/-- Embedded from `src/services/http.ts`: the two localStorage keys the
response interceptor manages. -/
structure BrowserStorage where
  accessToken : Option String
  userProfile : Option String
deriving DecidableEq

/-- Embedded from `src/services/http.ts` lines 30–42: the rejected branch
of the response interceptor.  On status 401 it removes `access_token` and
`user_profile`; in every case it shows a message and re-rejects with the
original error, never converting the failure into a success. -/
def respondToHttpError (err : HttpErrorModel) (st : BrowserStorage) :
    BrowserStorage × Except HttpErrorModel Unit :=
  (if err.status = some 401 then ⟨none, none⟩ else st, .error err)

/-- Claim C10: the response interceptor always re-rejects with the original
error (it never produces a success), clears both stored credentials exactly
when the response status is 401, and leaves the storage unchanged for every
other status. -/
theorem interceptor_rejects_and_clears (err : HttpErrorModel) (st : BrowserStorage) :
    (respondToHttpError err st).2 = .error err ∧
    (err.status = some 401 →
      (respondToHttpError err st).1 = BrowserStorage.mk none none) ∧
    (err.status ≠ some 401 → (respondToHttpError err st).1 = st) := by
  refine ⟨rfl, ?_, ?_⟩
  · intro h
    unfold respondToHttpError
    rw [if_pos h]
  · intro h
    unfold respondToHttpError
    rw [if_neg h]

/-- Witness for C10: a 401 clears both keys; a 500 leaves them in place and
still rejects. -/
theorem interceptor_rejects_and_clears_witness :
    (respondToHttpError ⟨some 401, "Unauthorized"⟩
        ⟨some "tok", some "usr"⟩).1 = BrowserStorage.mk none none ∧
    (respondToHttpError ⟨some 500, "boom"⟩
        ⟨some "tok", some "usr"⟩).1 = BrowserStorage.mk (some "tok") (some "usr") ∧
    (respondToHttpError ⟨some 500, "boom"⟩
        ⟨some "tok", some "usr"⟩).2 = .error ⟨some 500, "boom"⟩ :=
  ⟨(interceptor_rejects_and_clears ⟨some 401, "Unauthorized"⟩
      ⟨some "tok", some "usr"⟩).2.1 rfl,
    (interceptor_rejects_and_clears ⟨some 500, "boom"⟩
      ⟨some "tok", some "usr"⟩).2.2 (by decide),
    (interceptor_rejects_and_clears ⟨some 500, "boom"⟩
      ⟨some "tok", some "usr"⟩).1⟩

end OpenCVToolkit
